import Mathlib

/-!
Verification of the Twilio→AWS message-processor pipeline.

The Python sources (`handler.py`, `message_logs.py`) are shallowly embedded
below: pure helpers become Lean functions over `String`/`List Char`, the
AWS/Twilio side effects (S3 reads and writes, media downloads, Bedrock calls,
SES sends) become explicit oracle parameters, and Python exceptions become
`Option`/`Except` values or explicit failure flags.  Character classes model
the ASCII fragment of Python's `str` semantics (the payloads in question are
ASCII phone numbers, URLs and message bodies).
-/

set_option maxRecDepth 100000

namespace MsgProc

/-- ASCII model of Python's regex `\w` class: letters, digits, underscore. -/
def isWordChar (c : Char) : Bool := c.isAlphanum || c = '_'

/-- ASCII model of Python's regex `\s` class / `str.strip` whitespace set. -/
def isSpaceChar (c : Char) : Bool :=
  c = ' ' || c = '\t' || c = '\n' || c = '\r' || c = '\x0b' || c = '\x0c'

/-- Python `str.strip()` on a character list (ASCII whitespace). -/
def pyStrip (l : List Char) : List Char :=
  ((l.dropWhile isSpaceChar).reverse.dropWhile isSpaceChar).reverse

/-- `str.strip()` lifted to `String`. -/
def pyStripStr (s : String) : String := String.mk (pyStrip s.data)

/-- Longest prefix of word characters, together with the remainder
(the `\w+` munch of the action regex). -/
def takeWord : List Char → List Char × List Char
  | [] => ([], [])
  | c :: cs =>
    if isWordChar c then
      let (w, r) := takeWord cs
      (c :: w, r)
    else
      ([], c :: cs)

/-- Greedy scan of the `(?:/\w+)+` part of the action regex: consumes as many
`/word` groups as possible and returns them with the unconsumed remainder.
`fuel` bounds the recursion; `fuel = length of the input` always suffices
because every group consumes at least two characters. -/
def scanGroupsAux : Nat → List Char → List (List Char) × List Char
  | 0, l => ([], l)
  | fuel + 1, l =>
    match l with
    | [] => ([], [])
    | c :: cs =>
      if c = '/' then
        let (w, r) := takeWord cs
        if w = [] then ([], l)
        else
          let (ws, rest) := scanGroupsAux fuel r
          (w :: ws, rest)
      else ([], l)

/-- Greedy scan of leading `/word` groups of a character list. -/
def scanGroups (l : List Char) : List (List Char) × List Char :=
  scanGroupsAux l.length l

/-- After the matched `/token` groups, the regex accepts only end-of-input
or whitespace (`(?:\s+(.*))?$`). -/
def restHead : List Char → Bool
  | [] => true
  | c :: _ => isSpaceChar c

/-- Embedding of `parse_actions(body)` (handler.py): match
`^((?:/\w+)+)(?:\s+(.*))?$` with DOTALL against the body; on a match return
the slash-separated tokens, the stripped trailing text, and the raw body;
otherwise return no tokens and the whole body as the message. -/
def parse_actions (body : String) : List String × String × String :=
  if body = "" then ([], "", "")
  else
    let (toks, rest) := scanGroups body.data
    if toks ≠ [] ∧ restHead rest then
      (toks.map String.mk, String.mk (pyStrip rest), body)
    else
      ([], body, body)

/-- Embedding of `sanitize_phone_number` (handler.py): keep only the
alphanumeric characters. -/
def sanitize_phone_number (phone : String) : String :=
  String.mk (phone.data.filter Char.isAlphanum)

/-! ## HMAC-SHA1 and base64 (the `hashlib` / `hmac` / `base64` calls of
`validate_twilio_signature`), over bytes modelled as `Nat` values below 256
and 32-bit words as `Nat` values reduced mod `2 ^ 32`. -/

/-- UTF-8 encoding of one character, as byte values. -/
def utf8Bytes (c : Char) : List Nat :=
  let n := c.toNat
  if n < 128 then [n]
  else if n < 2048 then [192 + n / 64, 128 + n % 64]
  else if n < 65536 then [224 + n / 4096, 128 + n / 64 % 64, 128 + n % 64]
  else [240 + n / 262144, 128 + n / 4096 % 64, 128 + n / 64 % 64, 128 + n % 64]

/-- Python `str.encode('utf-8')`: the UTF-8 bytes of a string. -/
def strBytes (s : String) : List Nat := s.data.flatMap utf8Bytes

/-- Truncation to a 32-bit word. -/
def mod32 (x : Nat) : Nat := x % 4294967296

/-- 32-bit left rotation (operand assumed below `2 ^ 32`). -/
def rotl32 (x n : Nat) : Nat := mod32 (x * 2 ^ n) + x / 2 ^ (32 - n)

/-- 32-bit bitwise complement. -/
def not32 (x : Nat) : Nat := Nat.xor x 4294967295

/-- Big-endian bytes of a 32-bit word. -/
def wordBytes (w : Nat) : List Nat :=
  [w / 16777216 % 256, w / 65536 % 256, w / 256 % 256, w % 256]

/-- SHA-1 padding: append `0x80`, zero-fill to 56 mod 64, then the bit length
as a big-endian 64-bit integer. -/
def sha1Pad (msg : List Nat) : List Nat :=
  let n := msg.length
  let zeros := (119 - n % 64) % 64
  let bits := n * 8
  msg ++ [128] ++ List.replicate zeros 0 ++
    [bits / 2 ^ 56 % 256, bits / 2 ^ 48 % 256, bits / 2 ^ 40 % 256,
     bits / 2 ^ 32 % 256, bits / 2 ^ 24 % 256, bits / 2 ^ 16 % 256,
     bits / 2 ^ 8 % 256, bits % 256]

/-- Split a byte list into 64-byte chunks (`fuel` = list length suffices). -/
def chunksAux : Nat → List Nat → List (List Nat)
  | 0, _ => []
  | _, [] => []
  | fuel + 1, l => l.take 64 :: chunksAux fuel (l.drop 64)

/-- The 64-byte blocks of a padded message. -/
def chunks64 (l : List Nat) : List (List Nat) := chunksAux l.length l

/-- Big-endian 32-bit words of a 64-byte block (`fuel` = 16). -/
def blockWordsAux : Nat → List Nat → List Nat
  | 0, _ => []
  | fuel + 1, b1 :: b2 :: b3 :: b4 :: rest =>
    (b1 * 16777216 + b2 * 65536 + b3 * 256 + b4) :: blockWordsAux fuel rest
  | _ + 1, _ => []

/-- Message-schedule extension: starting from the 16 block words (newest
first), prepend 64 derived words. -/
def extendWordsAux : Nat → List Nat → List Nat
  | 0, acc => acc
  | k + 1, acc =>
    let w := rotl32
      (Nat.xor (Nat.xor (Nat.xor (acc.getD 2 0) (acc.getD 7 0)) (acc.getD 13 0)) (acc.getD 15 0)) 1
    extendWordsAux k (w :: acc)

/-- The 80 schedule words of one block, oldest first. -/
def scheduleWords (block : List Nat) : List Nat :=
  (extendWordsAux 64 (blockWordsAux 16 block).reverse).reverse

/-- One SHA-1 round: `i` is the round index, `w` the schedule word. -/
def sha1Round (st : Nat × Nat × Nat × Nat × Nat) (iw : Nat × Nat) : Nat × Nat × Nat × Nat × Nat :=
  let (a, b, c, d, e) := st
  let (i, w) := iw
  let f :=
    if i < 20 then Nat.lor (Nat.land b c) (Nat.land (not32 b) d)
    else if i < 40 then Nat.xor (Nat.xor b c) d
    else if i < 60 then Nat.lor (Nat.lor (Nat.land b c) (Nat.land b d)) (Nat.land c d)
    else Nat.xor (Nat.xor b c) d
  let k :=
    if i < 20 then 1518500249
    else if i < 40 then 1859775393
    else if i < 60 then 2400959708
    else 3395469782
  let temp := mod32 (rotl32 a 5 + f + e + k + w)
  (temp, a, rotl32 b 30, c, d)

/-- Absorb one 64-byte block into the SHA-1 state. -/
def sha1Block (h : Nat × Nat × Nat × Nat × Nat) (block : List Nat) : Nat × Nat × Nat × Nat × Nat :=
  let (h0, h1, h2, h3, h4) := h
  let ws := scheduleWords block
  let (a, b, c, d, e) :=
    ((List.range 80).zip ws).foldl sha1Round (h0, h1, h2, h3, h4)
  (mod32 (h0 + a), mod32 (h1 + b), mod32 (h2 + c), mod32 (h3 + d), mod32 (h4 + e))

/-- SHA-1 digest of a byte list, as 20 bytes. -/
def sha1 (msg : List Nat) : List Nat :=
  let init : Nat × Nat × Nat × Nat × Nat :=
    (1732584193, 4023233417, 2562383102, 271733878, 3285377520)
  let (h0, h1, h2, h3, h4) := (chunks64 (sha1Pad msg)).foldl sha1Block init
  wordBytes h0 ++ wordBytes h1 ++ wordBytes h2 ++ wordBytes h3 ++ wordBytes h4

/-- HMAC-SHA1 (`hmac.new(key, msg, hashlib.sha1).digest()`). -/
def hmacSha1 (key msg : List Nat) : List Nat :=
  let key := if 64 < key.length then sha1 key else key
  let padded := key ++ List.replicate (64 - key.length) 0
  let ipad := padded.map (fun b => Nat.xor b 54)
  let opad := padded.map (fun b => Nat.xor b 92)
  sha1 (opad ++ sha1 (ipad ++ msg))

/-- The base64 alphabet character for a 6-bit value. -/
def b64Char (n : Nat) : Char :=
  if n < 26 then Char.ofNat (65 + n)
  else if n < 52 then Char.ofNat (97 + n - 26)
  else if n < 62 then Char.ofNat (48 + n - 52)
  else if n = 62 then '+'
  else '/'

/-- Base64 encoding loop over 3-byte groups (`fuel` = list length suffices). -/
def b64Aux : Nat → List Nat → List Char
  | 0, _ => []
  | fuel + 1, l =>
    match l with
    | [] => []
    | [b1] => [b64Char (b1 / 4), b64Char (b1 % 4 * 16), '=', '=']
    | [b1, b2] => [b64Char (b1 / 4), b64Char (b1 % 4 * 16 + b2 / 16), b64Char (b2 % 16 * 4), '=']
    | b1 :: b2 :: b3 :: rest =>
      b64Char (b1 / 4) :: b64Char (b1 % 4 * 16 + b2 / 16) ::
        b64Char (b2 % 16 * 4 + b3 / 64) :: b64Char (b3 % 64) :: b64Aux fuel rest

/-- `base64.b64encode(bytes).decode()` as a string. -/
def b64encode (bytes : List Nat) : String := String.mk (b64Aux bytes.length bytes)

/-- Code-point-wise lexicographic comparison of character lists (Python `str`
comparison on ASCII strings). -/
def charListLe : List Char → List Char → Bool
  | [], _ => true
  | _ :: _, [] => false
  | a :: as, b :: bs =>
    if a.toNat < b.toNat then true
    else if b.toNat < a.toNat then false
    else charListLe as bs

/-- Python `<=` on strings (code-point lexicographic). -/
def strLe (a b : String) : Bool := charListLe a.data b.data

/-- Insertion into a sorted list (helper for `sortStrings`). -/
def insertSorted (x : String) : List String → List String
  | [] => [x]
  | y :: ys => if strLe x y then x :: y :: ys else y :: insertSorted x ys

/-- Python `sorted` on a list of strings (ascending, code-point order). -/
def sortStrings : List String → List String
  | [] => []
  | x :: xs => insertSorted x (sortStrings xs)

/-- Dictionary lookup with default: `params.get(k, d)` for an association
list with distinct keys. -/
def lookupD (params : List (String × String)) (k d : String) : String :=
  match params.find? (fun p => p.1 == k) with
  | some p => p.2
  | none => d

/-- The string Twilio signs: the URL followed by each payload key directly
followed by its value, keys in sorted order. -/
def buildSignedString (url : String) (params : List (String × String)) : String :=
  (sortStrings (params.map Prod.fst)).foldl (fun s k => s ++ k ++ lookupD params k "") url

/-- Embedding of `validate_twilio_signature` (handler.py): false on missing
url/secret/signature, else compare the supplied signature against the
base64-encoded HMAC-SHA1 of the signed string keyed by the auth token
(`hmac.compare_digest` modelled as string equality). -/
def validate_twilio_signature (url : String) (params : List (String × String))
    (signature authToken : String) : Bool :=
  if signature = "" ∨ authToken = "" ∨ url = "" then false
  else
    b64encode (hmacSha1 (strBytes authToken) (strBytes (buildSignedString url params))) == signature

/-! ## The Lambda handler pipeline.

External effects become explicit data: `S3ReadResult` is the outcome of the
`get_object` call on the per-sender log key, `World` bundles the effect
oracles (timestamp, log read result, log write success, per-attachment media
download success, SES send success), and the list of `StoreOp` values paired
with the response records the successful store mutations the run performed.
Action processors are a parameter `registry` mapping a command token to a
routine returning `Except` (a raised Python exception becomes `Except.error`).
Payloads arrive as association lists with distinct keys (Python dicts). -/

/-- `params.get(k)`: `none` when the key is absent. -/
def lookupOpt (params : List (String × String)) (k : String) : Option String :=
  (params.find? (fun p => p.1 == k)).map Prod.snd

/-- Outcome of the S3 `get_object` call on the log key: content, a
`NoSuchKey` error, or any other fault. -/
inductive S3ReadResult
  | ok (content : String)
  | noSuchKey
  | fault
deriving DecidableEq, Repr

/-- Embedding of `read_log_from_s3` (handler.py): returns the stored blob;
`NoSuchKey` is absorbed as an empty log, and any other fault is printed and
likewise absorbed as an empty string. -/
def read_log_from_s3 : S3ReadResult → String
  | .ok content => content
  | .noSuchKey => ""
  | .fault => ""

/-- Embedding of `send_email` (handler.py): skips (returns false) when no
notification address is configured, otherwise succeeds or fails with the SES
call; every fault is caught, so the caller only ever sees a `Bool`. -/
def send_email (notificationEmail : String) (sesOk : Bool) : Bool :=
  if notificationEmail = "" then false else sesOk

/-- The `ext_map` content-type table of `download_and_save_media`. -/
def ext_map : List (String × String) :=
  [("image/jpeg", "jpg"), ("image/png", "png"), ("image/gif", "gif"),
   ("image/webp", "webp"), ("video/mp4", "mp4"), ("video/3gpp", "3gp"),
   ("video/quicktime", "mov")]

/-- File extension for a content type: the `ext_map` entry, else the segment
after the last `/` (Python `content_type.split('/')[-1]`). -/
def extFor (contentType : String) : String :=
  match ext_map.find? (fun p => p.1 == contentType) with
  | some p => p.2
  | none => String.mk ((contentType.data.reverse.takeWhile (fun c => c ≠ '/')).reverse)

/-- Embedding of `download_and_save_media` (handler.py): `none` when Twilio
credentials are unset or when the fetch/persist fails (`fetchOk` is the
combined success of the authenticated download and the S3 put); on success
the deterministic media key. -/
def download_and_save_media (accountSid authToken : String) (fetchOk : Bool)
    (contentType sid : String) (index : Nat) : Option String :=
  if accountSid = "" || authToken = "" then none
  else if fetchOk then
    some ("media/" ++ sid ++ "_" ++ toString index ++ "." ++ extFor contentType)
  else none

/-- One tab-delimited log record (handler.py line 527): timestamp,
message sid, recipient, location, actions, media count, media keys, text. -/
structure LogEntry where
  timestamp : String
  message_sid : String
  to_number : String
  location : String
  actions_str : String
  num_media_str : String
  media_keys_str : String
  message_text : String
deriving DecidableEq, Repr

/-- The newline-terminated tab-delimited line of one log entry. -/
def mkLogLine (e : LogEntry) : String :=
  e.timestamp ++ "\t" ++ e.message_sid ++ "\t" ++ e.to_number ++ "\t" ++
    e.location ++ "\t" ++ e.actions_str ++ "\t" ++ e.num_media_str ++ "\t" ++
    e.media_keys_str ++ "\t" ++ e.message_text ++ "\n"

/-- Python `int(s)`: strip whitespace, optional sign, decimal digits;
`none` models the `ValueError` raised on anything else. -/
def digitsToNat (l : List Char) : Option Nat :=
  if l = [] then none
  else if l.all Char.isDigit then
    some (l.foldl (fun a c => a * 10 + (c.toNat - 48)) 0)
  else none

/-- Python `int(s)` on a string argument. -/
def pyInt (s : String) : Option Int :=
  match pyStrip s.data with
  | '+' :: ds => (digitsToNat ds).map Int.ofNat
  | '-' :: ds => (digitsToNat ds).map (fun n => -(n : Int))
  | ds => (digitsToNat ds).map Int.ofNat

/-- Read-only context handed to action processors (`ActionContext` in
handler.py; the S3 client handle and bucket name carry no data relevant to
dispatch and are omitted). -/
structure ActionContext where
  message_text : String
  log_content : String
  from_number : String
  to_number : String
  message_sid : String
  location : String
  timestamp : String
deriving DecidableEq, Repr

/-- Result entry recorded for one dispatched action (`{'action': ...,
'success': ..., 'result' / 'error': ...}` in handler.py). -/
structure ActionResult where
  action : String
  success : Bool
  payload : String
deriving DecidableEq, Repr

/-- Embedding of `process_actions` (handler.py): for each token in order,
look up the registered processor; a missing registration is skipped with no
result entry, a processor returning normally yields a success entry, and a
raising processor (`Except.error`) yields a failure entry without stopping
the loop. -/
def process_actions (registry : String → Option (ActionContext → Except String String)) :
    List String → ActionContext → List ActionResult
  | [], _ => []
  | a :: rest, ctx =>
    (match registry a with
     | some proc =>
       match proc ctx with
       | Except.ok r => [⟨a, true, r⟩]
       | Except.error e => [⟨a, false, e⟩]
     | none => []) ++ process_actions registry rest ctx

/-- Environment configuration of the handler module (empty string / empty
list model an unset variable). -/
structure Config where
  s3BucketName : String
  twilioAccountSid : String
  twilioAuthToken : String
  notificationEmail : String
  attachLogFile : Bool
  allowedPhoneNumbers : List String
  webhookUrl : String
deriving Repr

/-- An inbound request after form decoding: the payload fields and the
`x-twilio-signature` header. -/
structure Event where
  payload : List (String × String)
  twilioSignature : String
deriving Repr

/-- Effect oracles for one handler run. -/
structure World where
  timestamp : String
  logRead : S3ReadResult
  logWriteOk : Bool
  mediaOk : Nat → Bool
  sesOk : Bool

/-- An HTTP response as the handler returns it. -/
structure Response where
  statusCode : Nat
  headers : List (String × String)
  body : String
deriving DecidableEq, Repr

/-- A successful store mutation performed during a run. -/
inductive StoreOp
  | putMedia (key : String)
  | putLog (key : String) (content : String)
deriving DecidableEq, Repr

/-- One iteration of the handler's media loop: skip when the `MediaUrl{i}`
field is absent or empty (Python truthiness of `payload.get(...)`), else
attempt the download; `none` when no key was persisted for index `i`. -/
def mediaAttempt (accountSid authToken : String) (mediaOk : Nat → Bool)
    (payload : List (String × String)) (sid : String) (i : Nat) : Option String :=
  let url := lookupD payload ("MediaUrl" ++ toString i) ""
  let contentType := lookupD payload ("MediaContentType" ++ toString i) "application/octet-stream"
  if url ≠ "" then
    download_and_save_media accountSid authToken (mediaOk i) contentType sid i
  else none

/-- The media loop of the handler: for each index below the declared count,
attempt the download when a `MediaUrl{i}` field is present and non-empty,
collecting the keys of the successfully persisted attachments in order. -/
def mediaLoop (accountSid authToken : String) (mediaOk : Nat → Bool)
    (payload : List (String × String)) (sid : String) (n : Nat) : List String :=
  (List.range n).foldl (fun keys i =>
    match mediaAttempt accountSid authToken mediaOk payload sid i with
    | some k => keys ++ [k]
    | none => keys) []

/-- `int(payload.get('NumMedia', 0))`: an absent field counts as zero, a
present field is parsed as a Python `int` (`none` = `ValueError`). -/
def declaredNumMedia (payload : List (String × String)) : Option Int :=
  match lookupOpt payload "NumMedia" with
  | none => some 0
  | some v => pyInt v

/-- The fixed TwiML acknowledgment body. -/
def twimlBody : String := "<?xml version=\"1.0\" encoding=\"UTF-8\"?><Response></Response>"

/-- Embedding of `handler` (handler.py): configuration checks, signature
validation, sender checks, field extraction, action parsing, media ingestion,
log append (read-modify-write), action dispatch, notification, response.
Returns the HTTP response together with the successful store mutations. -/
def handler (cfg : Config) (registry : String → Option (ActionContext → Except String String))
    (ev : Event) (w : World) : Response × List StoreOp :=
  if cfg.s3BucketName = "" then (⟨500, [], "Server configuration error"⟩, [])
  else if cfg.twilioAuthToken = "" then (⟨500, [], "Server configuration error"⟩, [])
  else if cfg.allowedPhoneNumbers = [] then (⟨500, [], "Server configuration error"⟩, [])
  else if cfg.webhookUrl = "" then (⟨500, [], "Server configuration error"⟩, [])
  else
    let payload := ev.payload
    if ¬ validate_twilio_signature cfg.webhookUrl payload ev.twilioSignature cfg.twilioAuthToken then
      (⟨403, [], "Invalid signature"⟩, [])
    else
      let from_number := lookupD payload "From" ""
      if from_number = "" then (⟨400, [], "Missing From number"⟩, [])
      else if ¬ cfg.allowedPhoneNumbers.contains from_number then
        (⟨403, [], "Unauthorized"⟩, [])
      else
        let sanitized_number := sanitize_phone_number from_number
        let log_key := "logs/" ++ sanitized_number ++ ".log"
        let timestamp := w.timestamp
        let message_sid := lookupD payload "MessageSid" ""
        let to_number := lookupD payload "To" ""
        let body := lookupD payload "Body" ""
        let from_city := lookupD payload "FromCity" ""
        let from_state := lookupD payload "FromState" ""
        let from_country := lookupD payload "FromCountry" ""
        let location := String.intercalate "," ([from_city, from_state, from_country].filter (fun s => s ≠ ""))
        let parsed := parse_actions body
        let actions := parsed.1
        let message_text := parsed.2.1
        let actions_str := if actions = [] then "" else String.intercalate "," actions
        match declaredNumMedia payload with
        | none => (⟨500, [], "Error processing message"⟩, [])
        | some num_media =>
          let media_keys := mediaLoop cfg.twilioAccountSid cfg.twilioAuthToken w.mediaOk
            payload message_sid num_media.toNat
          let media_keys_str := if media_keys = [] then "" else String.intercalate "," media_keys
          let entry : LogEntry :=
            ⟨timestamp, message_sid, to_number, location, actions_str,
             toString num_media, media_keys_str, message_text⟩
          let log_entry := mkLogLine entry
          let existing_log := read_log_from_s3 w.logRead
          let updated_log := existing_log ++ log_entry
          let mediaOps := media_keys.map StoreOp.putMedia
          if ¬ w.logWriteOk then
            (⟨500, [], "Error processing message"⟩, mediaOps)
          else
            let ctx : ActionContext :=
              ⟨message_text, updated_log, from_number, to_number, message_sid, location, timestamp⟩
            let _ := if actions ≠ [] then process_actions registry actions ctx else []
            let _ := send_email cfg.notificationEmail w.sesOk
            (⟨200, [("Content-Type", "application/xml")], twimlBody⟩,
             mediaOps ++ [StoreOp.putLog log_key updated_log])

/-! ## Concrete fixtures used by witnesses and counterexamples. -/

/-- A fully configured deployment. -/
def cfgEx : Config :=
  ⟨"my-bucket", "AC123", "secrettok", "alerts@example.com", false,
   ["+12025551234"], "https://example.com/webhook"⟩

/-- A well-formed inbound payload from the allow-listed sender. -/
def payloadEx : List (String × String) :=
  [("From", "+12025551234"), ("Body", "/question hi"), ("To", "+19999999999"),
   ("MessageSid", "SM1")]

/-- The genuine Twilio signature for `payloadEx` under `cfgEx`. -/
def sigEx : String :=
  b64encode (hmacSha1 (strBytes "secrettok")
    (strBytes (buildSignedString "https://example.com/webhook" payloadEx)))

/-- The event carrying `payloadEx` with its genuine signature. -/
def evEx : Event := ⟨payloadEx, sigEx⟩

/-- A fault-free world: first message from this sender, all effects succeed. -/
def worldEx : World :=
  ⟨"2026-01-01 00:00:00", S3ReadResult.noSuchKey, true, fun _ => true, true⟩

/-- An empty action registry. -/
def regNone : String → Option (ActionContext → Except String String) := fun _ => none

/-! ## Claim theorems -/

/-- The SHA-1 embedding reproduces the standard `abc` test vector. -/
theorem sha1_test_vector : b64encode (sha1 (strBytes "abc")) = "qZk+NkcGgWq6PiVxeFDCbJzQ2J0=" := by
  decide

/-- The HMAC-SHA1 embedding reproduces the RFC 2202 fox/dog test vector. -/
theorem hmacSha1_test_vector :
    b64encode (hmacSha1 (strBytes "key")
      (strBytes "The quick brown fox jumps over the lazy dog")) =
      "3nybhbi3iqa8ino29wqQcBydtNk=" := by
  decide

/-- C9: the sender-to-log-key derivation is not injective — the distinct
senders `+12025551234` and `12025551234` sanitize to the same string, hence
derive the same `logs/<sanitized>.log` key and share one log — and
`sanitize_phone_number` is idempotent. -/
theorem sanitize_phone_number_collision_and_idempotent :
    sanitize_phone_number "+12025551234" = sanitize_phone_number "12025551234" ∧
    ("+12025551234" : String) ≠ "12025551234" ∧
    "logs/" ++ sanitize_phone_number "+12025551234" ++ ".log" =
      "logs/" ++ sanitize_phone_number "12025551234" ++ ".log" ∧
    ∀ s : String, sanitize_phone_number (sanitize_phone_number s) = sanitize_phone_number s := by
  refine ⟨by decide, by decide, by decide, ?_⟩
  intro s
  simp [sanitize_phone_number, List.filter_filter]

/-- C6: dispatch attempts each token exactly once in order — the result list
is pointwise determined: a token with no registered processor contributes no
entry, a processor that returns contributes a success entry, and a processor
that raises contributes a failure entry, independently of every other
token. -/
theorem process_actions_pointwise
    (registry : String → Option (ActionContext → Except String String))
    (actions : List String) (ctx : ActionContext) :
    process_actions registry actions ctx =
      actions.filterMap (fun a =>
        match registry a with
        | some proc =>
          some (match proc ctx with
                | Except.ok r => ⟨a, true, r⟩
                | Except.error e => ⟨a, false, e⟩)
        | none => none) := by
  induction actions with
  | nil => rfl
  | cons a rest ih =>
    simp only [process_actions, ih, List.filterMap_cons]
    cases registry a with
    | none => simp
    | some proc => cases h : proc ctx <;> simp [h]

/-- C3: with the configuration present, an invalid signature yields 403, a
payload without a `From` field yields 400, and a non-allow-listed sender
yields 403 — and in each rejected case the run performs no store
mutation. -/
theorem handler_rejections (cfg : Config)
    (registry : String → Option (ActionContext → Except String String))
    (ev : Event) (w : World)
    (hb : cfg.s3BucketName ≠ "") (ht : cfg.twilioAuthToken ≠ "")
    (ha : cfg.allowedPhoneNumbers ≠ []) (hu : cfg.webhookUrl ≠ "") :
    (validate_twilio_signature cfg.webhookUrl ev.payload ev.twilioSignature cfg.twilioAuthToken = false →
      handler cfg registry ev w = (⟨403, [], "Invalid signature"⟩, [])) ∧
    (validate_twilio_signature cfg.webhookUrl ev.payload ev.twilioSignature cfg.twilioAuthToken = true →
      lookupD ev.payload "From" "" = "" →
      handler cfg registry ev w = (⟨400, [], "Missing From number"⟩, [])) ∧
    (validate_twilio_signature cfg.webhookUrl ev.payload ev.twilioSignature cfg.twilioAuthToken = true →
      lookupD ev.payload "From" "" ≠ "" →
      lookupD ev.payload "From" "" ∉ cfg.allowedPhoneNumbers →
      handler cfg registry ev w = (⟨403, [], "Unauthorized"⟩, [])) := by
  refine ⟨?_, ?_, ?_⟩ <;> intros <;> simp [handler, *]

/-- C3 witness: a concrete request whose signature does not verify is
rejected with 403 and leaves the store untouched. -/
theorem handler_rejections_witness :
    handler cfgEx regNone ⟨payloadEx, "bogus"⟩ worldEx = (⟨403, [], "Invalid signature"⟩, []) :=
  (handler_rejections cfgEx regNone ⟨payloadEx, "bogus"⟩ worldEx
    (by decide) (by decide) (by decide) (by decide)).1 (by decide)

/-- C2: once the run reaches the main log write and that write succeeds, the
response is 200 with `Content-Type: application/xml` and the exact TwiML
body, for every action registry (so for every dispatch failure) and every
notification outcome. -/
theorem handler_logged_200 (cfg : Config)
    (registry : String → Option (ActionContext → Except String String))
    (ev : Event) (w : World) (nm : Int)
    (hb : cfg.s3BucketName ≠ "") (ht : cfg.twilioAuthToken ≠ "")
    (ha : cfg.allowedPhoneNumbers ≠ []) (hu : cfg.webhookUrl ≠ "")
    (hv : validate_twilio_signature cfg.webhookUrl ev.payload ev.twilioSignature cfg.twilioAuthToken = true)
    (hf : lookupD ev.payload "From" "" ≠ "")
    (hw : lookupD ev.payload "From" "" ∈ cfg.allowedPhoneNumbers)
    (hn : declaredNumMedia ev.payload = some nm)
    (hl : w.logWriteOk = true) :
    (handler cfg registry ev w).1 =
      ⟨200, [("Content-Type", "application/xml")],
       "<?xml version=\"1.0\" encoding=\"UTF-8\"?><Response></Response>"⟩ := by
  simp [handler, twimlBody, *]

/-- C2 witness: a concrete run whose only registered processor raises and
whose notification send fails still answers 200 with the TwiML body. -/
theorem handler_logged_200_witness :
    (handler cfgEx
      (fun a => if a = "question" then some (fun _ => Except.error "boom") else none)
      evEx ⟨"2026-01-01 00:00:00", S3ReadResult.noSuchKey, true, fun _ => true, false⟩).1 =
      ⟨200, [("Content-Type", "application/xml")],
       "<?xml version=\"1.0\" encoding=\"UTF-8\"?><Response></Response>"⟩ :=
  handler_logged_200 cfgEx _ evEx _ 0
    (by decide) (by decide) (by decide) (by decide) (by decide) (by decide)
    (by decide) (by decide) (by decide)

/-- A world whose S3 log read faults (everything else succeeds). -/
def worldReadFault : World :=
  ⟨"2026-01-01 00:00:00", S3ReadResult.fault, true, fun _ => true, true⟩

/-- C1 counterexample: a concrete request during which the main-log read
faults is nevertheless acknowledged with 200 (and the log is written), not
turned into a 500 — the read fault is absorbed by `read_log_from_s3`. -/
theorem read_fault_not_500 :
    (handler cfgEx regNone evEx worldReadFault).1.statusCode = 200 ∧
    ¬ (handler cfgEx regNone evEx worldReadFault).1.statusCode = 500 ∧
    (∃ k c, StoreOp.putLog k c ∈ (handler cfgEx regNone evEx worldReadFault).2) := by
  exact ⟨by decide, by decide, "logs/12025551234.log",
    "2026-01-01 00:00:00\tSM1\t+19999999999\t\tquestion\t0\t\thi\n", by decide⟩

/-- C1 (amended): a *write* fault against the main log surfaces as a 500
with no log mutation recorded, while a *read* fault is absorbed — the run
behaves exactly as if the stored log were empty. -/
theorem store_fault_main_log (cfg : Config)
    (registry : String → Option (ActionContext → Except String String))
    (ev : Event) (w : World) (nm : Int)
    (hb : cfg.s3BucketName ≠ "") (ht : cfg.twilioAuthToken ≠ "")
    (ha : cfg.allowedPhoneNumbers ≠ []) (hu : cfg.webhookUrl ≠ "")
    (hv : validate_twilio_signature cfg.webhookUrl ev.payload ev.twilioSignature cfg.twilioAuthToken = true)
    (hf : lookupD ev.payload "From" "" ≠ "")
    (hw : lookupD ev.payload "From" "" ∈ cfg.allowedPhoneNumbers)
    (hn : declaredNumMedia ev.payload = some nm) :
    (w.logWriteOk = false →
      (handler cfg registry ev w).1 = ⟨500, [], "Error processing message"⟩ ∧
      ∀ k c, StoreOp.putLog k c ∉ (handler cfg registry ev w).2) ∧
    handler cfg registry ev { w with logRead := S3ReadResult.fault } =
      handler cfg registry ev { w with logRead := S3ReadResult.ok "" } := by
  constructor
  · intro hl
    constructor
    · simp [handler, *]
    · intro k c
      simp [handler, *]
  · rfl

/-- C1 witness for the amended theorem: a concrete run whose log write
faults answers 500 and records no log mutation, and a concrete read-faulting
run equals the same run on an empty stored log. -/
theorem store_fault_main_log_witness :
    ((handler cfgEx regNone evEx ⟨"2026-01-01 00:00:00", S3ReadResult.noSuchKey, false, fun _ => true, true⟩).1 =
        ⟨500, [], "Error processing message"⟩ ∧
      ∀ k c, StoreOp.putLog k c ∉
        (handler cfgEx regNone evEx ⟨"2026-01-01 00:00:00", S3ReadResult.noSuchKey, false, fun _ => true, true⟩).2) ∧
    handler cfgEx regNone evEx ⟨"2026-01-01 00:00:00", S3ReadResult.fault, true, fun _ => true, true⟩ =
      handler cfgEx regNone evEx ⟨"2026-01-01 00:00:00", S3ReadResult.ok "", true, fun _ => true, true⟩ :=
  ⟨(store_fault_main_log cfgEx regNone evEx _ 0 (by decide) (by decide) (by decide)
      (by decide) (by decide) (by decide) (by decide) (by decide)).1 rfl,
   (store_fault_main_log cfgEx regNone evEx
      ⟨"2026-01-01 00:00:00", S3ReadResult.noSuchKey, true, fun _ => true, true⟩ 0
      (by decide) (by decide) (by decide) (by decide) (by decide) (by decide)
      (by decide) (by decide)).2⟩

/-- C8 counterexample: with the provider account identifier unset (or the
notification address unset) and everything else configured, a concrete
request is *not* short-circuited with a 500 — it is processed through to the
200 acknowledgment. -/
theorem config_missing_not_500 :
    (handler { cfgEx with twilioAccountSid := "" } regNone evEx worldEx).1.statusCode = 200 ∧
    (handler { cfgEx with notificationEmail := "" } regNone evEx worldEx).1.statusCode = 200 := by
  constructor <;> decide

/-- C8 (amended): only four configuration values short-circuit every request
with a 500 before any processing — the durable-store location, the provider
shared secret, the allow-list, and the callback URL; the run performs no
store mutation in that case. -/
theorem config_missing_500 (cfg : Config)
    (registry : String → Option (ActionContext → Except String String))
    (ev : Event) (w : World)
    (h : cfg.s3BucketName = "" ∨ cfg.twilioAuthToken = "" ∨
      cfg.allowedPhoneNumbers = [] ∨ cfg.webhookUrl = "") :
    handler cfg registry ev w = (⟨500, [], "Server configuration error"⟩, []) := by
  rcases h with h | h | h | h <;> simp [handler, h]

/-- C8 witness: a deployment with no bucket configured answers 500 to a
concrete request. -/
theorem config_missing_500_witness :
    handler { cfgEx with s3BucketName := "" } regNone evEx worldEx =
      (⟨500, [], "Server configuration error"⟩, []) :=
  config_missing_500 _ regNone evEx worldEx (Or.inl rfl)

/-- Concatenation of `key ++ value` over a key list (declarative form of the
signing loop). -/
def concatPairs (keys : List String) (params : List (String × String)) : String :=
  match keys with
  | [] => ""
  | k :: ks => k ++ lookupD params k "" ++ concatPairs ks params

theorem foldl_concatPairs (params : List (String × String)) :
    ∀ (keys : List String) (acc : String),
      keys.foldl (fun s k => s ++ k ++ lookupD params k "") acc = acc ++ concatPairs keys params := by
  intro keys
  induction keys with
  | nil => intro acc; simp [concatPairs]
  | cons k ks ih =>
    intro acc
    rw [List.foldl_cons, ih, concatPairs]
    simp [String.append_assoc]

theorem buildSignedString_eq (url : String) (params : List (String × String)) :
    buildSignedString url params =
      url ++ concatPairs (sortStrings (params.map Prod.fst)) params :=
  foldl_concatPairs params _ url

/-- C7: the validator returns false whenever the URL, the signature, or the
secret is empty (and, being a total function, never throws); otherwise it
accepts exactly the base64-encoded HMAC-SHA1, keyed by the secret, of the
URL followed by every payload key immediately followed by its value, keys in
ascending lexicographic order with no separators. -/
theorem validate_twilio_signature_spec (url : String) (params : List (String × String))
    (signature authToken : String) :
    ((url = "" ∨ signature = "" ∨ authToken = "") →
      validate_twilio_signature url params signature authToken = false) ∧
    (url ≠ "" → signature ≠ "" → authToken ≠ "" →
      (validate_twilio_signature url params signature authToken = true ↔
        signature = b64encode (hmacSha1 (strBytes authToken)
          (strBytes (url ++ concatPairs (sortStrings (params.map Prod.fst)) params))))) := by
  constructor
  · intro h
    unfold validate_twilio_signature
    rw [if_pos (by tauto)]
  · intro hu hs ha
    unfold validate_twilio_signature
    rw [if_neg (by tauto), beq_iff_eq, buildSignedString_eq]
    exact eq_comm

/-- C7 witness: the genuine signature for `payloadEx` is accepted, and the
validator rejects when the secret is empty. -/
theorem validate_twilio_signature_spec_witness :
    validate_twilio_signature "https://example.com/webhook" payloadEx sigEx "secrettok" = true ∧
    validate_twilio_signature "https://example.com/webhook" payloadEx sigEx "" = false :=
  ⟨((validate_twilio_signature_spec "https://example.com/webhook" payloadEx sigEx
      "secrettok").2 (by decide) (by decide) (by decide)).mpr
      (by unfold sigEx; rw [buildSignedString_eq]),
   (validate_twilio_signature_spec "https://example.com/webhook" payloadEx sigEx "").1
      (Or.inr (Or.inr rfl))⟩

/-! ## Log blob structure (claim C5). -/

/-- Split a character list at every occurrence of `sep` (Python
`str.split(sep)`: one more chunk than separators, empty chunks kept). -/
def splitChar (sep : Char) : List Char → List (List Char)
  | [] => [[]]
  | c :: cs =>
    if c = sep then [] :: splitChar sep cs
    else
      match splitChar sep cs with
      | h :: t => (c :: h) :: t
      | [] => [[c]]

/-- Join character lists with a separator (Python `sep.join`). -/
def intercalateChar (sep : Char) : List (List Char) → List Char
  | [] => []
  | [x] => x
  | x :: y :: xs => x ++ sep :: intercalateChar sep (y :: xs)

/-- The eight fields of a log entry, in record order. -/
def entryFields (e : LogEntry) : List (List Char) :=
  [e.timestamp.data, e.message_sid.data, e.to_number.data, e.location.data,
   e.actions_str.data, e.num_media_str.data, e.media_keys_str.data, e.message_text.data]

/-- A field is clean when it embeds no tab and no newline. -/
def fieldClean (l : List Char) : Bool := l.all (fun c => c ≠ '\t' && c ≠ '\n')

/-- All eight fields of the entry are clean. -/
def entryClean (e : LogEntry) : Bool := (entryFields e).all fieldClean

/-- Sequential append of entries to an initially empty log, exactly as the
handler's read-modify-write composes: each delivery concatenates its line to
the previous blob. -/
def appendLog (entries : List LogEntry) : String :=
  entries.foldl (fun log e => log ++ mkLogLine e) ""

theorem splitChar_no_sep {sep : Char} : ∀ {l : List Char}, sep ∉ l → splitChar sep l = [l] := by
  intro l
  induction l with
  | nil => intro _; rfl
  | cons c cs ih =>
    intro h
    have hc : ¬ c = sep := fun hcs => h (hcs ▸ List.mem_cons_self c cs)
    have hcs : sep ∉ cs := fun hm => h (List.mem_cons_of_mem c hm)
    simp [splitChar, hc, ih hcs]

theorem splitChar_append_sep {sep : Char} :
    ∀ {xs : List Char} (ys : List Char), sep ∉ xs →
      splitChar sep (xs ++ sep :: ys) = xs :: splitChar sep ys := by
  intro xs
  induction xs with
  | nil => intro ys _; simp [splitChar]
  | cons c cs ih =>
    intro ys h
    have hc : ¬ c = sep := fun hcs => h (hcs ▸ List.mem_cons_self c cs)
    have hcs : sep ∉ cs := fun hm => h (List.mem_cons_of_mem c hm)
    simp [splitChar, hc, ih ys hcs]

theorem not_mem_intercalateChar {c sep : Char} :
    ∀ {ls : List (List Char)}, (∀ l ∈ ls, c ∉ l) → c ≠ sep →
      c ∉ intercalateChar sep ls := by
  intro ls
  induction ls with
  | nil => intro _ _; simp [intercalateChar]
  | cons x xs ih =>
    intro h hcs
    cases xs with
    | nil => simpa [intercalateChar] using h x (List.mem_cons_self x [])
    | cons y ys =>
      simp only [intercalateChar, List.mem_append, List.mem_cons]
      rintro (hx | hx | hx)
      · exact h x (List.mem_cons_self x _) hx
      · exact hcs hx
      · exact ih (fun l hl => h l (List.mem_cons_of_mem x hl)) hcs hx

theorem splitChar_intercalateChar {sep : Char} :
    ∀ {ls : List (List Char)}, ls ≠ [] → (∀ l ∈ ls, sep ∉ l) →
      splitChar sep (intercalateChar sep ls) = ls := by
  intro ls
  induction ls with
  | nil => intro h; exact absurd rfl h
  | cons x xs ih =>
    intro _ h
    cases xs with
    | nil => exact splitChar_no_sep (h x (List.mem_cons_self x []))
    | cons y ys =>
      rw [intercalateChar, splitChar_append_sep _ (h x (List.mem_cons_self x _))]
      rw [ih (by simp) (fun l hl => h l (List.mem_cons_of_mem x hl))]

theorem fieldClean_tab {l : List Char} (h : fieldClean l = true) : '\t' ∉ l := by
  intro hm
  have := List.all_eq_true.mp h '\t' hm
  simp at this

theorem fieldClean_nl {l : List Char} (h : fieldClean l = true) : '\n' ∉ l := by
  intro hm
  have := List.all_eq_true.mp h '\n' hm
  simp at this

theorem mkLogLine_data (e : LogEntry) :
    (mkLogLine e).data = intercalateChar '\t' (entryFields e) ++ ['\n'] := by
  simp [mkLogLine, entryFields, intercalateChar, String.data_append]

theorem appendLog_data :
    ∀ (entries : List LogEntry) (acc : String),
      (entries.foldl (fun log e => log ++ mkLogLine e) acc).data =
        acc.data ++ (entries.map (fun e => (mkLogLine e).data)).flatten := by
  intro entries
  induction entries with
  | nil => intro acc; simp
  | cons e es ih =>
    intro acc
    simp [List.foldl_cons, ih, String.data_append]

theorem entryClean_no_nl {e : LogEntry} (h : entryClean e = true) :
    '\n' ∉ intercalateChar '\t' (entryFields e) := by
  refine not_mem_intercalateChar ?_ (by decide)
  intro l hl
  exact fieldClean_nl (List.all_eq_true.mp h l hl)

/-- C5: appending `N` messages with tab/newline-free fields sequentially to
an empty log yields a blob that splits on newlines into exactly the `N`
entry lines in append order (plus the empty chunk after the final
terminator), and every line splits on tabs into exactly its 8 fields. -/
theorem log_append_shape (entries : List LogEntry)
    (h : ∀ e ∈ entries, entryClean e = true) :
    splitChar '\n' (appendLog entries).data =
      entries.map (fun e => intercalateChar '\t' (entryFields e)) ++ [[]] ∧
    (splitChar '\n' (appendLog entries).data).length = entries.length + 1 ∧
    ∀ e ∈ entries,
      splitChar '\t' (intercalateChar '\t' (entryFields e)) = entryFields e ∧
      (entryFields e).length = 8 := by
  have hsplit : splitChar '\n' (appendLog entries).data =
      entries.map (fun e => intercalateChar '\t' (entryFields e)) ++ [[]] := by
    rw [appendLog, appendLog_data]
    show splitChar '\n' ([] ++ _) = _
    rw [List.nil_append]
    induction entries with
    | nil => rfl
    | cons e es ih =>
      rw [List.map_cons, List.flatten_cons, mkLogLine_data, List.append_assoc,
        List.singleton_append,
        splitChar_append_sep _ (entryClean_no_nl (h e (List.mem_cons_self e es)))]
      rw [ih (fun x hx => h x (List.mem_cons_of_mem e hx))]
      simp
  refine ⟨hsplit, by rw [hsplit]; simp, ?_⟩
  intro e he
  refine ⟨splitChar_intercalateChar (by simp [entryFields]) ?_, rfl⟩
  intro l hl
  exact fieldClean_tab (List.all_eq_true.mp (h e he) l hl)

/-- C5 witness: two concrete clean entries produce a two-line blob of
8-field lines. -/
theorem log_append_shape_witness :
    splitChar '\n' (appendLog
        [⟨"2026-01-01 00:00:00", "SM1", "+19999999999", "", "question", "0", "", "hi"⟩,
         ⟨"2026-01-02 00:00:00", "SM2", "+19999999999", "Reno,NV,US", "", "1", "media/SM2_0.jpg", "pic"⟩]).data =
      [⟨"2026-01-01 00:00:00", "SM1", "+19999999999", "", "question", "0", "", "hi"⟩,
       ⟨"2026-01-02 00:00:00", "SM2", "+19999999999", "Reno,NV,US", "", "1", "media/SM2_0.jpg", "pic"⟩].map
        (fun e => intercalateChar '\t' (entryFields e)) ++ [[]] :=
  (log_append_shape _ (by decide)).1

/-! ## Media count vs persisted references (claim C10). -/

theorem mediaLoop_eq_filterMap (accountSid authToken : String) (mediaOk : Nat → Bool)
    (payload : List (String × String)) (sid : String) (n : Nat) :
    mediaLoop accountSid authToken mediaOk payload sid n =
      (List.range n).filterMap (mediaAttempt accountSid authToken mediaOk payload sid) := by
  have aux : ∀ (l : List Nat) (acc : List String),
      l.foldl (fun keys i =>
        match mediaAttempt accountSid authToken mediaOk payload sid i with
        | some k => keys ++ [k]
        | none => keys) acc =
      acc ++ l.filterMap (mediaAttempt accountSid authToken mediaOk payload sid) := by
    intro l
    induction l with
    | nil => intro acc; simp
    | cons i is ih =>
      intro acc
      rw [List.foldl_cons, List.filterMap_cons]
      cases h : mediaAttempt accountSid authToken mediaOk payload sid i <;> simp [h, ih]
  rw [mediaLoop, aux, List.nil_append]

theorem length_filterMap_lt {α β : Type} (f : α → Option β) :
    ∀ (l : List α), (∃ x ∈ l, f x = none) → (l.filterMap f).length < l.length := by
  intro l
  induction l with
  | nil => rintro ⟨x, hx, _⟩; cases hx
  | cons a as ih =>
    rintro ⟨x, hx, hnone⟩
    rw [List.filterMap_cons]
    cases ha : f a with
    | none =>
      exact Nat.lt_succ_of_le (List.length_filterMap_le f as)
    | some b =>
      rcases List.mem_cons.mp hx with rfl | hxs
      · rw [ha] at hnone; cases hnone
      · simpa using Nat.succ_lt_succ (ih ⟨x, hxs, hnone⟩)

/-- C10: in a run that appends to the log, the entry's media-count field is
the declared `NumMedia` value while the media-references field joins only
the successfully persisted attachments, so when any declared attachment
fails to download or persist, the logged count strictly exceeds the number
of logged references. -/
theorem handler_media_count_exceeds_refs (cfg : Config)
    (registry : String → Option (ActionContext → Except String String))
    (ev : Event) (w : World) (nm : Int)
    (hb : cfg.s3BucketName ≠ "") (ht : cfg.twilioAuthToken ≠ "")
    (ha : cfg.allowedPhoneNumbers ≠ []) (hu : cfg.webhookUrl ≠ "")
    (hv : validate_twilio_signature cfg.webhookUrl ev.payload ev.twilioSignature cfg.twilioAuthToken = true)
    (hf : lookupD ev.payload "From" "" ≠ "")
    (hw : lookupD ev.payload "From" "" ∈ cfg.allowedPhoneNumbers)
    (hn : declaredNumMedia ev.payload = some nm)
    (hl : w.logWriteOk = true)
    (hfail : ∃ i, i < nm.toNat ∧
      mediaAttempt cfg.twilioAccountSid cfg.twilioAuthToken w.mediaOk ev.payload
        (lookupD ev.payload "MessageSid" "") i = none) :
    ∃ (entry : LogEntry) (keys : List String) (key : String),
      (handler cfg registry ev w).2 =
        keys.map StoreOp.putMedia ++
          [StoreOp.putLog key (read_log_from_s3 w.logRead ++ mkLogLine entry)] ∧
      entry.num_media_str = toString nm ∧
      entry.media_keys_str = (if keys = [] then "" else String.intercalate "," keys) ∧
      keys = mediaLoop cfg.twilioAccountSid cfg.twilioAuthToken w.mediaOk ev.payload
        (lookupD ev.payload "MessageSid" "") nm.toNat ∧
      keys.length < nm.toNat := by
  have hlen : (mediaLoop cfg.twilioAccountSid cfg.twilioAuthToken w.mediaOk ev.payload
      (lookupD ev.payload "MessageSid" "") nm.toNat).length < nm.toNat := by
    rw [mediaLoop_eq_filterMap]
    have := length_filterMap_lt
      (mediaAttempt cfg.twilioAccountSid cfg.twilioAuthToken w.mediaOk ev.payload
        (lookupD ev.payload "MessageSid" "")) (List.range nm.toNat) ?_
    · simpa using this
    · obtain ⟨i, hi, he⟩ := hfail
      exact ⟨i, List.mem_range.mpr hi, he⟩
  simp only [handler]
  simp [*]
  exact ⟨_, _, ⟨_, rfl⟩, rfl, rfl, rfl, by omega⟩

/-- A payload declaring two attachments. -/
def payloadM : List (String × String) :=
  [("From", "+12025551234"), ("Body", "pics"), ("To", "+19999999999"),
   ("MessageSid", "SM2"), ("NumMedia", "2"),
   ("MediaUrl0", "https://api.twilio.com/m0"), ("MediaContentType0", "image/jpeg"),
   ("MediaUrl1", "https://api.twilio.com/m1"), ("MediaContentType1", "image/png")]

/-- The genuine signature for `payloadM` under `cfgEx`. -/
def sigM : String :=
  b64encode (hmacSha1 (strBytes "secrettok")
    (strBytes (buildSignedString "https://example.com/webhook" payloadM)))

/-- The event carrying `payloadM`. -/
def evM : Event := ⟨payloadM, sigM⟩

/-- A world in which only attachment 0 downloads successfully. -/
def worldM : World :=
  ⟨"2026-01-03 00:00:00", S3ReadResult.noSuchKey, true, fun i => i == 0, true⟩

/-- C10 witness: with two declared attachments of which the second fails,
the written entry carries media count 2 but only one media reference. -/
theorem handler_media_count_exceeds_refs_witness :
    ∃ (entry : LogEntry) (keys : List String) (key : String),
      (handler cfgEx regNone evM worldM).2 =
        keys.map StoreOp.putMedia ++
          [StoreOp.putLog key (read_log_from_s3 worldM.logRead ++ mkLogLine entry)] ∧
      entry.num_media_str = toString (2 : Int) ∧
      entry.media_keys_str = (if keys = [] then "" else String.intercalate "," keys) ∧
      keys = mediaLoop cfgEx.twilioAccountSid cfgEx.twilioAuthToken worldM.mediaOk evM.payload
        (lookupD evM.payload "MessageSid" "") (2 : Int).toNat ∧
      keys.length < (2 : Int).toNat :=
  handler_media_count_exceeds_refs cfgEx regNone evM worldM 2
    (by decide) (by decide) (by decide) (by decide) (by decide) (by decide)
    (by decide) (by decide) (by decide) ⟨1, by decide, by decide⟩

/-! ## Command parser correctness (claim C4). -/

/-- Well-formed command token list: non-empty, and every token a non-empty
run of word characters. -/
def wfToks (toks : List String) : Bool :=
  !toks.isEmpty && toks.all (fun t => !t.data.isEmpty && t.data.all isWordChar)

/-- The trailing text of a matching body: empty or starting with
whitespace. -/
def restOk (rest : String) : Bool := restHead rest.data

/-- A body beginning with one `/token` group per token, followed directly by
the trailing text. -/
def buildBody (toks : List String) (rest : String) : String :=
  String.mk ((toks.map (fun t => '/' :: t.data)).flatten ++ rest.data)

theorem isSpaceChar_not_word {c : Char} (h : isSpaceChar c = true) : isWordChar c = false := by
  simp only [isSpaceChar, Bool.or_eq_true, decide_eq_true_eq] at h
  rcases h with ((((h | h) | h) | h) | h) | h <;> subst h <;> decide

theorem isSpaceChar_ne_slash {c : Char} (h : isSpaceChar c = true) : c ≠ '/' := by
  simp only [isSpaceChar, Bool.or_eq_true, decide_eq_true_eq] at h
  rcases h with ((((h | h) | h) | h) | h) | h <;> subst h <;> decide

theorem takeWord_cons (c : Char) (cs : List Char) :
    takeWord (c :: cs) =
      if isWordChar c then (c :: (takeWord cs).1, (takeWord cs).2)
      else ([], c :: cs) := by
  rcases htw : takeWord cs with ⟨w, r⟩
  simp only [takeWord, htw]

theorem takeWord_complete :
    ∀ {w : List Char}, w.all isWordChar = true →
      ∀ {r : List Char}, (match r with | [] => True | c :: _ => isWordChar c = false) →
        takeWord (w ++ r) = (w, r) := by
  intro w
  induction w with
  | nil =>
    intro _ r hr
    cases r with
    | nil => rfl
    | cons c cs =>
      rw [List.nil_append, takeWord_cons, if_neg]
      simp only at hr
      simp [hr]
  | cons c w ih =>
    intro h r hr
    simp only [List.all_cons, Bool.and_eq_true] at h
    rw [List.cons_append, takeWord_cons, if_pos h.1, ih h.2 hr]

theorem takeWord_sound :
    ∀ {cs w r : List Char}, takeWord cs = (w, r) →
      cs = w ++ r ∧ w.all isWordChar = true := by
  intro cs
  induction cs with
  | nil =>
    intro w r h
    simp only [takeWord] at h
    injection h with h1 h2
    subst h1; subst h2
    simp
  | cons c cs ih =>
    intro w r h
    rw [takeWord_cons] at h
    by_cases hw : isWordChar c = true
    · rw [if_pos hw] at h
      rcases htw : takeWord cs with ⟨w1, r1⟩
      rw [htw] at h
      injection h with h1 h2
      subst h1; subst h2
      obtain ⟨hcs, hall⟩ := ih htw
      subst hcs
      simp [hw, hall]
    · rw [if_neg hw] at h
      injection h with h1 h2
      subst h1; subst h2
      simp

theorem scanGroupsAux_cons (f : Nat) (c : Char) (cs : List Char) :
    scanGroupsAux (f + 1) (c :: cs) =
      if c = '/' then
        if (takeWord cs).1 = [] then ([], c :: cs)
        else ((takeWord cs).1 :: (scanGroupsAux f (takeWord cs).2).1,
          (scanGroupsAux f (takeWord cs).2).2)
      else ([], c :: cs) := by
  rcases htw : takeWord cs with ⟨w, r⟩
  rcases hsc : scanGroupsAux f r with ⟨ws, rest⟩
  simp only [scanGroupsAux, htw, hsc]

theorem scanGroupsAux_complete :
    ∀ (toks : List (List Char)) (fuel : Nat) (rest : List Char),
      (∀ t ∈ toks, t ≠ [] ∧ t.all isWordChar = true) →
      toks.length ≤ fuel →
      (match rest with | [] => True | c :: _ => c ≠ '/' ∧ isWordChar c = false) →
      scanGroupsAux fuel ((toks.map (fun t => '/' :: t)).flatten ++ rest) = (toks, rest) := by
  intro toks
  induction toks with
  | nil =>
    intro fuel rest _ _ hr
    simp only [List.map_nil, List.flatten_nil, List.nil_append]
    cases fuel with
    | zero => rfl
    | succ f =>
      cases rest with
      | nil => rfl
      | cons c cs =>
        simp only at hr
        rw [scanGroupsAux_cons, if_neg hr.1]
  | cons t ts ih =>
    intro fuel rest h hf hr
    cases fuel with
    | zero => simp at hf
    | succ f =>
      have htail : (match (ts.map (fun t => '/' :: t)).flatten ++ rest with
          | [] => True | c :: _ => isWordChar c = false) := by
        cases ts with
        | nil =>
          simp only [List.map_nil, List.flatten_nil, List.nil_append]
          cases rest with
          | nil => trivial
          | cons c cs => exact hr.2
        | cons t2 ts2 =>
          simp only [List.map_cons, List.flatten_cons, List.cons_append]
          decide
      have ht := h t (List.mem_cons_self t ts)
      have hts : ∀ x ∈ ts, x ≠ [] ∧ x.all isWordChar = true :=
        fun x hx => h x (List.mem_cons_of_mem t hx)
      have hf2 : ts.length ≤ f := by simpa using hf
      simp only [List.map_cons, List.flatten_cons, List.cons_append, List.append_assoc]
      rw [scanGroupsAux_cons, if_pos rfl, takeWord_complete ht.2 htail]
      simp only
      rw [if_neg ht.1, ih f rest hts hf2 hr]

theorem scanGroupsAux_sound :
    ∀ (fuel : Nat) (l : List Char) (ws : List (List Char)) (rest : List Char),
      scanGroupsAux fuel l = (ws, rest) →
      l = (ws.map (fun t => '/' :: t)).flatten ++ rest ∧
        ∀ t ∈ ws, t ≠ [] ∧ t.all isWordChar = true := by
  intro fuel
  induction fuel with
  | zero =>
    intro l ws rest h
    simp only [scanGroupsAux] at h
    injection h with h1 h2
    subst h1; subst h2
    simp
  | succ f ih =>
    intro l ws rest h
    cases l with
    | nil =>
      simp only [scanGroupsAux] at h
      injection h with h1 h2
      subst h1; subst h2
      simp
    | cons c cs =>
      rw [scanGroupsAux_cons] at h
      by_cases hc : c = '/'
      · subst hc
        rw [if_pos rfl] at h
        rcases htw : takeWord cs with ⟨w, r⟩
        rw [htw] at h
        obtain ⟨hcs, hall⟩ := takeWord_sound htw
        by_cases hw : w = []
        · subst hw
          rw [if_pos rfl] at h
          injection h with h1 h2
          subst h1; subst h2
          simp
        · rw [if_neg hw] at h
          rcases hsc : scanGroupsAux f r with ⟨ws1, rest1⟩
          rw [hsc] at h
          injection h with h1 h2
          subst h1; subst h2
          obtain ⟨hr, hprops⟩ := ih r ws1 rest1 hsc
          subst hcs
          subst hr
          constructor
          · simp [List.append_assoc]
          · intro x hx
            rcases List.mem_cons.mp hx with rfl | hx2
            · exact ⟨hw, hall⟩
            · exact hprops x hx2
      · rw [if_neg hc] at h
        injection h with h1 h2
        subst h1; subst h2
        simp

theorem length_le_flatten (toks : List (List Char)) :
    toks.length ≤ ((toks.map (fun t => '/' :: t)).flatten).length := by
  induction toks with
  | nil => simp
  | cons t ts ih =>
    simp only [List.map_cons, List.flatten_cons, List.length_append, List.length_cons]
    omega

theorem parse_actions_complete (toks : List String) (rest : String)
    (h1 : wfToks toks = true) (h2 : restOk rest = true) :
    parse_actions (buildBody toks rest) = (toks, pyStripStr rest, buildBody toks rest) := by
  simp only [wfToks, Bool.and_eq_true, Bool.not_eq_true', List.isEmpty_eq_false,
    List.all_eq_true] at h1
  obtain ⟨hne, hall⟩ := h1
  have hprops : ∀ t ∈ toks.map String.data, t ≠ [] ∧ t.all isWordChar = true := by
    intro t ht
    obtain ⟨s, hs, rfl⟩ := List.mem_map.mp ht
    have hx := hall s hs
    simp only [Bool.and_eq_true, Bool.not_eq_true', List.isEmpty_eq_false,
      List.all_eq_true] at hx
    exact ⟨hx.1, List.all_eq_true.mpr hx.2⟩
  have hdata : (buildBody toks rest).data =
      (((toks.map String.data).map (fun t => '/' :: t)).flatten ++ rest.data) := by
    simp [buildBody, List.map_map, Function.comp_def]
  have hhead : (match rest.data with
      | [] => True | c :: _ => c ≠ '/' ∧ isWordChar c = false) := by
    have h3 : restHead rest.data = true := h2
    cases hr : rest.data with
    | nil => trivial
    | cons c cs =>
      rw [hr] at h3
      simp only [restHead] at h3
      exact ⟨isSpaceChar_ne_slash h3, isSpaceChar_not_word h3⟩
  have hscan : scanGroups (buildBody toks rest).data = (toks.map String.data, rest.data) := by
    rw [scanGroups, hdata]
    refine scanGroupsAux_complete (toks.map String.data) _ rest.data hprops ?_ hhead
    have h5 := length_le_flatten (toks.map String.data)
    simp only [List.length_append, List.length_map] at h5 ⊢
    omega
  have hbody_ne : buildBody toks rest ≠ "" := by
    intro hcontra
    have h6 : (buildBody toks rest).data = [] := by rw [hcontra]
    rw [hdata] at h6
    cases toks with
    | nil => exact hne rfl
    | cons t ts => simp at h6
  have htoksne : toks.map String.data ≠ [] := by
    cases toks with
    | nil => exact absurd rfl hne
    | cons t ts => simp
  have hrestok : restHead rest.data = true := h2
  have hmap2 : (toks.map String.data).map String.mk = toks := by
    rw [List.map_map]
    have hcomp : (String.mk ∘ String.data) = fun s : String => s := funext fun s => rfl
    rw [hcomp, List.map_id']
  unfold parse_actions
  rw [if_neg hbody_ne, hscan]
  simp only [htoksne, hrestok, ne_eq, not_false_eq_true, and_self, if_true, pyStripStr,
    hmap2]

theorem parse_actions_unmatched (body : String)
    (h : ¬ ∃ (toks : List String) (rest : String),
      wfToks toks = true ∧ restOk rest = true ∧ body = buildBody toks rest) :
    parse_actions body = ([], body, body) := by
  by_cases hb : body = ""
  · subst hb; rfl
  · rcases hsc : scanGroups body.data with ⟨toksL, rest⟩
    by_cases hcond : toksL ≠ [] ∧ restHead rest = true
    · exfalso
      obtain ⟨hdec, hprops⟩ := scanGroupsAux_sound body.data.length body.data toksL rest hsc
      refine h ⟨toksL.map String.mk, String.mk rest, ?_, ?_, ?_⟩
      · simp only [wfToks, Bool.and_eq_true, Bool.not_eq_true', List.isEmpty_eq_false,
          List.all_eq_true]
        constructor
        · simpa using hcond.1
        · intro s hs
          obtain ⟨w, hw, rfl⟩ := List.mem_map.mp hs
          have hx := hprops w hw
          simp only [Bool.and_eq_true, Bool.not_eq_true', List.isEmpty_eq_false,
            List.all_eq_true]
          exact ⟨hx.1, List.all_eq_true.mp hx.2⟩
      · exact hcond.2
      · apply String.ext
        show body.data = _
        rw [hdec]
        simp [buildBody, List.map_map, Function.comp_def]
    · unfold parse_actions
      rw [if_neg hb, hsc]
      exact if_neg hcond

/-- C4: the command parser matches exactly the bodies that begin with one or
more `/token` groups (tokens non-empty runs of word characters) followed by
nothing or by whitespace and trailing text; on a match it returns the tokens
in order (duplicates kept) and the whitespace-trimmed trailing text, and on
everything else it returns no tokens with the entire body as the message —
including the listed concrete examples. -/
theorem parse_actions_spec :
    (∀ (toks : List String) (rest : String), wfToks toks = true → restOk rest = true →
      parse_actions (buildBody toks rest) = (toks, pyStripStr rest, buildBody toks rest)) ∧
    (∀ body : String,
      (¬ ∃ (toks : List String) (rest : String),
        wfToks toks = true ∧ restOk rest = true ∧ body = buildBody toks rest) →
      parse_actions body = ([], body, body)) ∧
    parse_actions "/a/b hello world" = (["a", "b"], "hello world", "/a/b hello world") ∧
    parse_actions "/a" = (["a"], "", "/a") ∧
    parse_actions "no slash here" = ([], "no slash here", "no slash here") ∧
    parse_actions "" = ([], "", "") ∧
    parse_actions "/a-b" = ([], "/a-b", "/a-b") :=
  ⟨parse_actions_complete, parse_actions_unmatched,
   by decide, by decide, by decide, by decide, by decide⟩

/-- C4 witness: the matching direction applied to the concrete decomposition
of `/a/b hello world`. -/
theorem parse_actions_spec_witness :
    wfToks ["a", "b"] = true ∧ restOk " hello world" = true ∧
    parse_actions (buildBody ["a", "b"] " hello world") =
      (["a", "b"], pyStripStr " hello world", buildBody ["a", "b"] " hello world") :=
  ⟨by decide, by decide, parse_actions_spec.1 ["a", "b"] " hello world" (by decide) (by decide)⟩

end MsgProc
